import Mathlib

/-!
# Banking ledger service: a shallow embedding

This file embeds the core of a Go banking-ledger service in Lean 4 and
proves (or refutes) the claims of its specification against the embedded
code.

Modelling choices:
* Monetary values (`balance`, `amount`, `balance_before`, `balance_after`)
  are `ℤ`, exact fixed-scale minor units (the schema stores
  `DECIMAL(20,2)`); the source uses `float64`, but every claim under study
  is a control-flow / exact-arithmetic property (sign checks, sums), so
  exact integers are a faithful abstraction of the arithmetic the code
  performs.
* Timestamps are `ℕ` (an abstract clock value passed in by the caller,
  standing for `time.Now()`).
* The Postgres `accounts` table is a list of rows; the Mongo `transactions`
  collection is a list of documents. `find?` models the point lookups the
  source performs (`WHERE id = $1`, `FindOne`).
* Calls that can fail for infrastructure reasons take an explicit
  fault flag (`infraFail`, `brokerFail`); a healthy run passes `false`.
* The service reads the Mongo collection twice on the submit path (the
  idempotency check, then the insert); to express the race the spec talks
  about, `createTransaction` receives the collection state observed at
  each of the two calls (`checkLog`, `insertLog`). A race-free run passes
  the same state twice.
-/

namespace Ledger

/-- Error kinds surfaced by the storage and broker gateways
(`sql.ErrNoRows` → not found, the `insufficient funds` error of
`UpdateAccountBalance`, the Mongo duplicate-key error on the unique
`reference` index, driver/infrastructure failures, broker failure,
and the service-boundary validation error). -/
inductive DbError where
  | notFound
  | insufficientFunds
  | duplicateReference
  | storageUnavailable
  | brokerUnavailable
  | invalidInput
  deriving Repr, DecidableEq

/-- A row of the Postgres `accounts` table
(`id VARCHAR(36) PRIMARY KEY, balance DECIMAL(20,2), created_at, updated_at`). -/
structure Account where
  id : String
  balance : ℤ
  createdAt : ℕ
  updatedAt : ℕ
  deriving Repr, DecidableEq

/-- The `accounts` table. -/
abbrev AccountStore := List Account

/-- `internal/db/postgres.go` `GetAccount`: `SELECT ... WHERE id = $1`. -/
def getAccountRow (s : AccountStore) (id : String) : Option Account :=
  s.find? (fun a => a.id == id)

/-- The `UPDATE accounts SET balance = $1, updated_at = $2 WHERE id = $3`
statement of `UpdateAccountBalance`. -/
def setBalance (s : AccountStore) (id : String) (newBalance : ℤ) (now : ℕ) :
    AccountStore :=
  s.map fun a =>
    if a.id == id then { a with balance := newBalance, updatedAt := now } else a

/-- `internal/db/postgres.go` `UpdateAccountBalance`: inside a SQL
transaction, `SELECT balance ... FOR UPDATE`; compute
`newBalance := currentBalance + amount`; if `newBalance < 0` roll back with
the `insufficient funds` error; otherwise write the new balance and
`updated_at` and commit.  The pair `(balanceBefore, balanceAfter)` is
returned on success.  `infraFail` injects a driver/infrastructure failure
(begin/query/exec/commit error), which rolls the transaction back.  The
second component of the result is the table after the call (unchanged on
every error path: the transaction is rolled back). -/
def updateAccountBalance (s : AccountStore) (id : String) (amount : ℤ)
    (now : ℕ) (infraFail : Bool) : Except DbError (ℤ × ℤ) × AccountStore :=
  if infraFail then (.error .storageUnavailable, s)
  else
    match getAccountRow s id with
    | none => (.error .notFound, s)
    | some a =>
      let newBalance := a.balance + amount
      if newBalance < 0 then (.error .insufficientFunds, s)
      else (.ok (a.balance, newBalance), setBalance s id newBalance now)

theorem find_setBalance (s : AccountStore) (id : String) (b : ℤ) (now : ℕ)
    (a : Account) (h : s.find? (fun x => x.id == id) = some a) :
    (setBalance s id b now).find? (fun x => x.id == id) =
      some { a with balance := b, updatedAt := now } := by
  induction s with
  | nil => simp [List.find?] at h
  | cons hd tl ih =>
    simp only [setBalance, List.map_cons]
    cases hid : (hd.id == id) with
    | true =>
      simp only [List.find?_cons, hid] at h
      cases h
      simp [List.find?_cons, hid]
    | false =>
      simp only [List.find?_cons, hid] at h
      simp only [List.find?_cons, hid, Bool.false_eq_true, if_false]
      simpa only [setBalance] using ih h

/-- C1: `UpdateAccountBalance` on an account with balance `b` and delta `d`
returns `(b, b + d)` and commits balance `b + d` (with the new timestamp)
when `b + d ≥ 0`; when `b + d < 0` it fails with `InsufficientFunds` and
the table is returned unchanged (the SQL transaction is rolled back, so the
account's balance and `updated_at` keep their old values). -/
theorem updateAccountBalance_spec (s : AccountStore) (id : String)
    (a : Account) (d : ℤ) (now : ℕ)
    (h : getAccountRow s id = some a) :
    (0 ≤ a.balance + d →
      updateAccountBalance s id d now false =
        (.ok (a.balance, a.balance + d), setBalance s id (a.balance + d) now) ∧
      getAccountRow (setBalance s id (a.balance + d) now) id =
        some { a with balance := a.balance + d, updatedAt := now }) ∧
    (a.balance + d < 0 →
      updateAccountBalance s id d now false = (.error .insufficientFunds, s)) := by
  constructor
  · intro hge
    constructor
    · simp [updateAccountBalance, h, not_lt.mpr hge]
    · exact find_setBalance s id (a.balance + d) now a h
  · intro hlt
    simp [updateAccountBalance, h, hlt]

/-- Witness for C1 at a concrete table: one account `acct-1` with balance 5;
a delta of −3 succeeds with pair (5, 2), a delta of −6 fails. -/
theorem updateAccountBalance_spec_witness :
    (updateAccountBalance [⟨"acct-1", 5, 0, 0⟩] "acct-1" (-3) 7 false =
        (.ok (5, 2), [⟨"acct-1", 2, 0, 7⟩]) ∧
      updateAccountBalance [⟨"acct-1", 5, 0, 0⟩] "acct-1" (-6) 7 false =
        (.error .insufficientFunds, [⟨"acct-1", 5, 0, 0⟩])) := by
  have h1 := updateAccountBalance_spec [⟨"acct-1", 5, 0, 0⟩] "acct-1"
    ⟨"acct-1", 5, 0, 0⟩ (-3) 7 (by decide)
  have h2 := updateAccountBalance_spec [⟨"acct-1", 5, 0, 0⟩] "acct-1"
    ⟨"acct-1", 5, 0, 0⟩ (-6) 7 (by decide)
  exact ⟨((h1.1 (by decide)).1).trans (by rfl), h2.2 (by decide)⟩

/-- `internal/models/transaction.go` `TransactionType`. -/
inductive TxType where
  | deposit
  | withdrawal
  deriving Repr, DecidableEq

/-- `internal/models/transaction.go` `TransactionStatus`. -/
inductive TxStatus where
  | pending
  | completed
  | failed
  deriving Repr, DecidableEq

/-- A document of the Mongo `transactions` collection
(`internal/models/transaction.go` `Transaction`).  `balanceBefore` and
`balanceAfter` are `float64` fields defaulting to 0 in Go. -/
structure Transaction where
  id : String
  accountId : String
  type : TxType
  amount : ℤ
  status : TxStatus
  reference : String
  balanceBefore : ℤ := 0
  balanceAfter : ℤ := 0
  createdAt : ℕ := 0
  updatedAt : ℕ := 0
  deriving Repr, DecidableEq

/-- The Mongo `transactions` collection. -/
abbrev LogStore := List Transaction

/-- `internal/models/transaction.go` `TransactionRequest`: the submit
request body. -/
structure TxRequest where
  accountId : String
  type : TxType
  amount : ℤ
  reference : String := ""
  deriving Repr, DecidableEq

/-- `internal/db/mongodb.go` `GetTransactionByID`: `FindOne` on `_id`. -/
def getTransactionByID (log : LogStore) (id : String) : Option Transaction :=
  log.find? (fun t => t.id == id)

/-- `internal/db/mongodb.go` `GetTransactionByReference`: `FindOne` on
`reference`; absence is `none`, not an error. -/
def getTransactionByReference (log : LogStore) (ref : String) :
    Option Transaction :=
  log.find? (fun t => t.reference == ref)

/-- `internal/db/mongodb.go` `CreateTransaction`: assign a fresh `_id` when
the document has none, stamp `created_at`/`updated_at` with now, and
`InsertOne`.  The unique index on `reference` makes the insert fail with a
duplicate-key error when the collection already holds that reference.
Returns the stamped document (the Go code mutates `tx` in place) together
with the collection after the insert. -/
def insertTransaction (log : LogStore) (tx : Transaction) (freshId : String)
    (now : ℕ) : Except DbError (Transaction × LogStore) :=
  let tx1 := if tx.id = "" then { tx with id := freshId } else tx
  let tx2 := { tx1 with createdAt := now, updatedAt := now }
  if log.any (fun t => t.reference == tx2.reference) then
    .error .duplicateReference
  else .ok (tx2, log ++ [tx2])

/-- `internal/db/mongodb.go` `UpdateTransactionStatus`: `UpdateOne` on
`_id`, setting `status`, `balance_before`, `balance_after`, `updated_at`. -/
def updateTransactionStatus (log : LogStore) (id : String)
    (status : TxStatus) (balanceBefore balanceAfter : ℤ) (now : ℕ) :
    LogStore :=
  log.map fun t =>
    if t.id == id then
      { t with status := status, balanceBefore := balanceBefore,
               balanceAfter := balanceAfter, updatedAt := now }
    else t

/-- Step 1 of `CreateTransaction` (`internal/service/transaction.go`): use
the client's reference, or a fresh UUID when the client sent none. -/
def normalizeReference (req : TxRequest) (freshRef : String) : String :=
  if req.reference = "" then freshRef else req.reference

/-- `internal/service/transaction.go` `CreateTransaction` (the submit
path).  `checkLog` is the collection state observed by the
`GetTransactionByReference` idempotency check and `insertLog` the state
observed by the insert; a race-free run has `checkLog = insertLog`.
Result: the service's return value, the collection after the call, and
the list of messages published to the broker during the call. -/
def createTransaction (checkLog insertLog : LogStore) (req : TxRequest)
    (freshRef freshId : String) (now : ℕ) (brokerFail : Bool) :
    Except DbError Transaction × LogStore × List Transaction :=
  let ref := normalizeReference req freshRef
  match getTransactionByReference checkLog ref with
  | some existingTx => (.ok existingTx, insertLog, [])
  | none =>
    let tx : Transaction :=
      { id := "", accountId := req.accountId, type := req.type,
        amount := req.amount, status := .pending, reference := ref }
    match insertTransaction insertLog tx freshId now with
    | .error e => (.error e, insertLog, [])
    | .ok (tx2, log2) =>
      if brokerFail then (.error .brokerUnavailable, log2, [])
      else (.ok tx2, log2, [tx2])

/-- `internal/api/handlers.go` `CreateTransaction`: the HTTP handler
decodes the body, checks that the account exists (404 otherwise), and
calls the service.  No other validation is performed. -/
def httpCreateTransaction (accounts : AccountStore)
    (checkLog insertLog : LogStore) (req : TxRequest)
    (freshRef freshId : String) (now : ℕ) (brokerFail : Bool) :
    Except DbError Transaction × LogStore × List Transaction :=
  match getAccountRow accounts req.accountId with
  | none => (.error .notFound, insertLog, [])
  | some _ =>
    createTransaction checkLog insertLog req freshRef freshId now brokerFail

/-- C2: when the normalized reference already has a transaction in the
log, `CreateTransaction` returns that existing transaction unchanged (same
id and current status), inserts nothing, and publishes nothing. -/
theorem createTransaction_idempotent (log : LogStore) (req : TxRequest)
    (freshRef freshId : String) (now : ℕ) (brokerFail : Bool)
    (tx : Transaction)
    (h : getTransactionByReference log (normalizeReference req freshRef) =
      some tx) :
    createTransaction log log req freshRef freshId now brokerFail =
      (.ok tx, log, []) := by
  simp [createTransaction, h]

/-- Witness for C2: replaying reference `r-1` returns the stored
transaction and leaves the log and broker untouched. -/
theorem createTransaction_idempotent_witness :
    createTransaction
        [{ id := "t1", accountId := "a1", type := .deposit, amount := 5,
           status := .completed, reference := "r-1" }]
        [{ id := "t1", accountId := "a1", type := .deposit, amount := 5,
           status := .completed, reference := "r-1" }]
        { accountId := "a1", type := .deposit, amount := 5,
          reference := "r-1" } "fresh-ref" "fresh-id" 9 false =
      (.ok { id := "t1", accountId := "a1", type := .deposit, amount := 5,
             status := .completed, reference := "r-1" },
        [{ id := "t1", accountId := "a1", type := .deposit, amount := 5,
           status := .completed, reference := "r-1" }], []) :=
  createTransaction_idempotent _ _ "fresh-ref" "fresh-id" 9 false _ (by decide)

/-- `internal/service/transaction.go` `markTransactionFailed`: write the
terminal `failed` status with `balance_before = 0, balance_after = 0`. -/
def markTransactionFailed (log : LogStore) (id : String) (now : ℕ) :
    LogStore :=
  updateTransactionStatus log id .failed 0 0 now

/-- `internal/service/transaction.go` `ProcessTransaction`, run on each
message received from the broker: look the account up; on absence mark the
transaction failed.  Compute the signed amount (positive for deposit,
negative for withdrawal) and call `UpdateAccountBalance`; on any error
from it mark the transaction failed; on success write status `completed`
with the returned `(before, after)` pair.  The function never re-reads the
transaction from the log first.  Result: whether processing returned
without error, the accounts table after the call, and the log after the
call. -/
def processTransaction (accounts : AccountStore) (log : LogStore)
    (tx : Transaction) (now : ℕ) (infraFail : Bool) :
    Bool × AccountStore × LogStore :=
  match getAccountRow accounts tx.accountId with
  | none => (false, accounts, markTransactionFailed log tx.id now)
  | some _ =>
    let amount := if tx.type = .withdrawal then -tx.amount else tx.amount
    match updateAccountBalance accounts tx.accountId amount now infraFail with
    | (.error _, accounts2) =>
      (false, accounts2, markTransactionFailed log tx.id now)
    | (.ok (balanceBefore, balanceAfter), accounts2) =>
      (true, accounts2,
        updateTransactionStatus log tx.id .completed balanceBefore
          balanceAfter now)

theorem find_updateTransactionStatus (log : LogStore) (id : String)
    (status : TxStatus) (b1 b2 : ℤ) (now : ℕ) (t : Transaction)
    (h : log.find? (fun x => x.id == id) = some t) :
    (updateTransactionStatus log id status b1 b2 now).find?
        (fun x => x.id == id) =
      some { t with status := status, balanceBefore := b1,
                    balanceAfter := b2, updatedAt := now } := by
  induction log with
  | nil => simp [List.find?] at h
  | cons hd tl ih =>
    simp only [updateTransactionStatus, List.map_cons]
    cases hid : (hd.id == id) with
    | true =>
      simp only [List.find?_cons, hid] at h
      cases h
      simp [List.find?_cons, hid]
    | false =>
      simp only [List.find?_cons, hid] at h
      simp only [List.find?_cons, hid, Bool.false_eq_true, if_false]
      simpa only [updateTransactionStatus] using ih h

/-- C4: on the healthy path, whenever `ProcessTransaction` finalizes a
transaction as `completed`, the `(balance_before, balance_after)` pair it
writes to the log is exactly the pair returned by the committed balance
mutation: `balance_after = balance_before + amount` for a deposit and
`balance_after = balance_before - amount` with `balance_after ≥ 0` for a
withdrawal; `balance_before` is the account's pre-call balance and the
account's committed balance equals `balance_after`. -/
theorem processTransaction_completed_spec (accounts : AccountStore)
    (log : LogStore) (tx : Transaction) (now : ℕ) (acct : Account)
    (t0 : Transaction)
    (hacct : getAccountRow accounts tx.accountId = some acct)
    (ht : getTransactionByID log tx.id = some t0)
    (hok : (processTransaction accounts log tx now false).1 = true) :
    getTransactionByID (processTransaction accounts log tx now false).2.2
        tx.id =
      some { t0 with status := .completed, balanceBefore := acct.balance,
                     balanceAfter := acct.balance +
                       (if tx.type = .withdrawal then -tx.amount
                        else tx.amount),
                     updatedAt := now } ∧
    (tx.type = .deposit →
      acct.balance + (if tx.type = .withdrawal then -tx.amount
        else tx.amount) = acct.balance + tx.amount) ∧
    (tx.type = .withdrawal →
      acct.balance + (if tx.type = .withdrawal then -tx.amount
        else tx.amount) = acct.balance - tx.amount ∧
      0 ≤ acct.balance + (if tx.type = .withdrawal then -tx.amount
        else tx.amount)) ∧
    getAccountRow (processTransaction accounts log tx now false).2.1
        tx.accountId =
      some { acct with
               balance := acct.balance +
                 (if tx.type = .withdrawal then -tx.amount else tx.amount),
               updatedAt := now } := by
  set d := (if tx.type = .withdrawal then -tx.amount else tx.amount) with hd
  by_cases hneg : acct.balance + d < 0
  · exfalso
    have hfalse : (processTransaction accounts log tx now false).1 = false := by
      simp [processTransaction, hacct, updateAccountBalance, ← hd, hneg]
    rw [hok] at hfalse
    exact Bool.noConfusion hfalse
  · push_neg at hneg
    have hrun : processTransaction accounts log tx now false =
        (true, setBalance accounts tx.accountId (acct.balance + d) now,
          updateTransactionStatus log tx.id .completed acct.balance
            (acct.balance + d) now) := by
      simp [processTransaction, hacct, updateAccountBalance, ← hd,
        not_lt.mpr hneg]
    refine ⟨?_, ?_, ?_, ?_⟩
    · rw [hrun]
      exact find_updateTransactionStatus log tx.id .completed acct.balance
        (acct.balance + d) now t0 ht
    · intro hdep
      simp [hd, hdep]
    · intro hwit
      exact ⟨by simp [hd, hwit, sub_eq_add_neg], hneg⟩
    · rw [hrun]
      exact find_setBalance accounts tx.accountId (acct.balance + d) now
        acct hacct

/-- Witness for C4: a withdrawal of 3 from balance 5 finalizes as
`completed` with the pair (5, 2), and the committed balance is 2. -/
theorem processTransaction_completed_spec_witness :
    getTransactionByID
        (processTransaction [⟨"a1", 5, 0, 0⟩]
            [{ id := "t1", accountId := "a1", type := .withdrawal,
               amount := 3, status := .pending, reference := "r-1" }]
            { id := "t1", accountId := "a1", type := .withdrawal,
              amount := 3, status := .pending, reference := "r-1" } 9
            false).2.2 "t1" =
      some { id := "t1", accountId := "a1", type := .withdrawal,
             amount := 3, status := .completed, reference := "r-1",
             balanceBefore := 5, balanceAfter := 2, createdAt := 0,
             updatedAt := 9 } := by
  have h := processTransaction_completed_spec [⟨"a1", 5, 0, 0⟩]
    [{ id := "t1", accountId := "a1", type := .withdrawal, amount := 3,
       status := .pending, reference := "r-1" }]
    { id := "t1", accountId := "a1", type := .withdrawal, amount := 3,
      status := .pending, reference := "r-1" } 9 ⟨"a1", 5, 0, 0⟩
    { id := "t1", accountId := "a1", type := .withdrawal, amount := 3,
      status := .pending, reference := "r-1" }
    (by decide) (by decide) (by decide)
  exact h.1.trans (by rfl)

/-- C5 (code evaluation at the failing input): `ProcessTransaction` never
re-reads the transaction by `id` from the log, so redelivery of an
already-`completed` deposit of 5 on an account holding 10 applies the
delta again: the committed balance becomes 15 and the log entry's
before/after pair is overwritten with (10, 15). -/
theorem processTransaction_redelivery_mutates :
    processTransaction [⟨"a1", 10, 0, 0⟩]
        [{ id := "t1", accountId := "a1", type := .deposit, amount := 5,
           status := .completed, reference := "r-1", balanceBefore := 5,
           balanceAfter := 10, createdAt := 0, updatedAt := 1 }]
        { id := "t1", accountId := "a1", type := .deposit, amount := 5,
          status := .completed, reference := "r-1", balanceBefore := 5,
          balanceAfter := 10, createdAt := 0, updatedAt := 1 } 2 false =
      (true, [⟨"a1", 15, 0, 2⟩],
        [{ id := "t1", accountId := "a1", type := .deposit, amount := 5,
           status := .completed, reference := "r-1", balanceBefore := 10,
           balanceAfter := 15, createdAt := 0, updatedAt := 2 }]) := by
  rfl

/-- C6 counterexample: with the account present and an infrastructure
failure in `UpdateAccountBalance` (`StorageUnavailable`), the processor
DOES finalize: it calls `update_status` and the pending transaction's log
status becomes `failed` (with before/after overwritten to 0), refuting
"no update_status call is made and the status remains pending". -/
theorem processTransaction_storage_cex :
    processTransaction [⟨"a1", 10, 0, 0⟩]
        [{ id := "t1", accountId := "a1", type := .deposit, amount := 5,
           status := .pending, reference := "r-1" }]
        { id := "t1", accountId := "a1", type := .deposit, amount := 5,
          status := .pending, reference := "r-1" } 2 true =
      (false, [⟨"a1", 10, 0, 0⟩],
        [{ id := "t1", accountId := "a1", type := .deposit, amount := 5,
           status := .failed, reference := "r-1", balanceBefore := 0,
           balanceAfter := 0, createdAt := 0, updatedAt := 2 }]) ∧
    (getTransactionByID
        (processTransaction [⟨"a1", 10, 0, 0⟩]
            [{ id := "t1", accountId := "a1", type := .deposit, amount := 5,
               status := .pending, reference := "r-1" }]
            { id := "t1", accountId := "a1", type := .deposit, amount := 5,
              status := .pending, reference := "r-1" } 2 true).2.2
        "t1").map Transaction.status ≠ some .pending := by
  exact ⟨rfl, by decide⟩

/-- C6 amended: on a `StorageUnavailable` failure of `apply_delta` the
processor finalizes the transaction as `failed` via
`markTransactionFailed` (status `failed`, `balance_before = balance_after
= 0`); the balance table itself is unchanged (the SQL transaction rolled
back). -/
theorem processTransaction_storage_marksFailed (accounts : AccountStore)
    (log : LogStore) (tx : Transaction) (now : ℕ)
    (a : Account) (hacct : getAccountRow accounts tx.accountId = some a)
    (tOld : Transaction) (ht : getTransactionByID log tx.id = some tOld) :
    processTransaction accounts log tx now true =
      (false, accounts, markTransactionFailed log tx.id now) ∧
    getTransactionByID (processTransaction accounts log tx now true).2.2
        tx.id =
      some { tOld with status := .failed, balanceBefore := 0,
                       balanceAfter := 0, updatedAt := now } := by
  have hrun : processTransaction accounts log tx now true =
      (false, accounts, markTransactionFailed log tx.id now) := by
    simp [processTransaction, hacct, updateAccountBalance]
  refine ⟨hrun, ?_⟩
  rw [hrun]
  exact find_updateTransactionStatus log tx.id .failed 0 0 now tOld ht

/-- Witness for the C6 amended theorem at the concrete counterexample
input. -/
theorem processTransaction_storage_marksFailed_witness :
    processTransaction [⟨"a1", 10, 0, 0⟩]
        [{ id := "t1", accountId := "a1", type := .deposit, amount := 5,
           status := .pending, reference := "r-1" }]
        { id := "t1", accountId := "a1", type := .deposit, amount := 5,
          status := .pending, reference := "r-1" } 2 true =
      (false, [⟨"a1", 10, 0, 0⟩],
        markTransactionFailed
          [{ id := "t1", accountId := "a1", type := .deposit, amount := 5,
             status := .pending, reference := "r-1" }] "t1" 2) := by
  have h := processTransaction_storage_marksFailed [⟨"a1", 10, 0, 0⟩]
    [{ id := "t1", accountId := "a1", type := .deposit, amount := 5,
       status := .pending, reference := "r-1" }]
    { id := "t1", accountId := "a1", type := .deposit, amount := 5,
      status := .pending, reference := "r-1" } 2
    ⟨"a1", 10, 0, 0⟩ (by decide)
    { id := "t1", accountId := "a1", type := .deposit, amount := 5,
      status := .pending, reference := "r-1" } (by decide)
  exact h.1

/-- C7 counterexample: the idempotency check misses (the log state it saw
was empty), a concurrent submitter then inserts reference `r-1`, and the
service's own insert hits the duplicate-key error.  `CreateTransaction`
returns that error to the caller — it does NOT re-read by reference and
does not return the existing record. -/
theorem createTransaction_duplicate_cex :
    (createTransaction []
          [{ id := "t0", accountId := "a1", type := .deposit, amount := 5,
             status := .pending, reference := "r-1" }]
          { accountId := "a1", type := .deposit, amount := 5,
            reference := "r-1" } "fresh-ref" "fresh-id" 3 false).1 =
      .error .duplicateReference ∧
    (createTransaction []
          [{ id := "t0", accountId := "a1", type := .deposit, amount := 5,
             status := .pending, reference := "r-1" }]
          { accountId := "a1", type := .deposit, amount := 5,
            reference := "r-1" } "fresh-ref" "fresh-id" 3 false).1 ≠
      .ok { id := "t0", accountId := "a1", type := .deposit, amount := 5,
            status := .pending, reference := "r-1" } := by
  refine ⟨rfl, fun h => ?_⟩
  exact Except.noConfusion ((rfl :
    (createTransaction []
        [{ id := "t0", accountId := "a1", type := .deposit, amount := 5,
           status := .pending, reference := "r-1" }]
        { accountId := "a1", type := .deposit, amount := 5,
          reference := "r-1" } "fresh-ref" "fresh-id" 3 false).1 =
      .error .duplicateReference).symm.trans h)

/-- C7 amended: when the idempotency check sees no transaction for the
normalized reference but the insert hits the duplicate-key error (a
concurrent submitter won the race), `CreateTransaction` propagates
`DuplicateReference` as an error; the log is left as the concurrent
writer made it and nothing is published. -/
theorem createTransaction_duplicate_propagates (checkLog insertLog : LogStore)
    (req : TxRequest) (freshRef freshId : String) (now : ℕ)
    (brokerFail : Bool)
    (hchk : getTransactionByReference checkLog
      (normalizeReference req freshRef) = none)
    (hdup : insertLog.any
      (fun t => t.reference == normalizeReference req freshRef) = true) :
    createTransaction checkLog insertLog req freshRef freshId now
        brokerFail =
      (.error .duplicateReference, insertLog, []) := by
  simp only [createTransaction, hchk]
  have : insertTransaction insertLog
      { id := "", accountId := req.accountId, type := req.type,
        amount := req.amount, status := .pending,
        reference := normalizeReference req freshRef } freshId now =
      .error .duplicateReference := by
    simp [insertTransaction, hdup]
  simp [this]

/-- Witness for the C7 amended theorem at the concrete race input. -/
theorem createTransaction_duplicate_propagates_witness :
    createTransaction []
        [{ id := "t0", accountId := "a1", type := .deposit, amount := 5,
           status := .pending, reference := "r-1" }]
        { accountId := "a1", type := .deposit, amount := 5,
          reference := "r-1" } "fresh-ref" "fresh-id" 3 false =
      (.error .duplicateReference,
        [{ id := "t0", accountId := "a1", type := .deposit, amount := 5,
           status := .pending, reference := "r-1" }], []) :=
  createTransaction_duplicate_propagates []
    [{ id := "t0", accountId := "a1", type := .deposit, amount := 5,
       status := .pending, reference := "r-1" }]
    { accountId := "a1", type := .deposit, amount := 5,
      reference := "r-1" } "fresh-ref" "fresh-id" 3 false (by decide)
    (by decide)

/-- `internal/service/account.go` `CreateAccount`: reject a negative
initial balance at the service boundary; otherwise
`internal/db/postgres.go` `CreateAccount` inserts a row with a fresh UUID
primary key (the insert fails if the key is already taken). -/
def createAccount (s : AccountStore) (initialBalance : ℤ) (freshId : String)
    (now : ℕ) : Except DbError Account × AccountStore :=
  if initialBalance < 0 then (.error .invalidInput, s)
  else if (getAccountRow s freshId).isSome then (.error .storageUnavailable, s)
  else
    let a : Account :=
      { id := freshId, balance := initialBalance, createdAt := now,
        updatedAt := now }
    (.ok a, s ++ [a])

/-- The operations that mutate the `accounts` table: account creation and
the processor's balance mutation (`apply_delta`). -/
inductive LedgerOp where
  | createAccount (initialBalance : ℤ) (freshId : String) (now : ℕ)
  | applyDelta (id : String) (amount : ℤ) (now : ℕ) (infraFail : Bool)

/-- The committed `accounts` table after one operation. -/
def stepAccounts (s : AccountStore) (op : LedgerOp) : AccountStore :=
  match op with
  | .createAccount b id now => (createAccount s b id now).2
  | .applyDelta id d now infraFail =>
    (updateAccountBalance s id d now infraFail).2

/-- The committed `accounts` table after a sequence of operations run from
the empty table. -/
def runOps (ops : List LedgerOp) : AccountStore :=
  ops.foldl stepAccounts []

/-- Invariant A1: every committed account balance is non-negative. -/
def NonnegBalances (s : AccountStore) : Prop :=
  ∀ a ∈ s, 0 ≤ a.balance

instance (s : AccountStore) : Decidable (NonnegBalances s) :=
  List.decidableBAll _ s

theorem stepAccounts_nonneg (s : AccountStore) (op : LedgerOp)
    (h : NonnegBalances s) : NonnegBalances (stepAccounts s op) := by
  cases op with
  | createAccount b id now =>
    by_cases hb : b < 0
    · simpa [stepAccounts, createAccount, hb] using h
    · by_cases hdup : (getAccountRow s id).isSome
      · simpa [stepAccounts, createAccount, hb, hdup] using h
      · intro a ha
        simp only [stepAccounts, createAccount, hb, hdup, if_false,
          Bool.false_eq_true, List.mem_append, List.mem_singleton] at ha
        rcases ha with ha | rfl
        · exact h a ha
        · exact not_lt.mp hb
  | applyDelta id d now infraFail =>
    cases infraFail with
    | true => simpa [stepAccounts, updateAccountBalance] using h
    | false =>
      cases hrow : getAccountRow s id with
      | none => simpa [stepAccounts, updateAccountBalance, hrow] using h
      | some a0 =>
        by_cases hneg : a0.balance + d < 0
        · simpa [stepAccounts, updateAccountBalance, hrow, hneg] using h
        · intro a ha
          have ha2 : a ∈ setBalance s id (a0.balance + d) now := by
            simpa [stepAccounts, updateAccountBalance, hrow, hneg] using ha
          simp only [setBalance, List.mem_map] at ha2
          obtain ⟨x, hx, hxa⟩ := ha2
          subst hxa
          by_cases hid : x.id == id
          · simpa [hid] using not_lt.mp hneg
          · simpa [hid] using h x hx

theorem runOps_from_nonneg (ops : List LedgerOp) :
    ∀ s : AccountStore, NonnegBalances s →
      NonnegBalances (ops.foldl stepAccounts s) := by
  induction ops with
  | nil => intro s h; simpa using h
  | cons op rest ih =>
    intro s h
    exact ih (stepAccounts s op) (stepAccounts_nonneg s op h)

/-- C3: `CreateAccount` rejects a negative initial balance with an error
and creates nothing; `UpdateAccountBalance` aborts with
`InsufficientFunds` whenever the delta would make the balance negative;
hence every committed state reachable by a sequence of create-account and
apply-delta operations satisfies invariant A1: all balances are ≥ 0. -/
theorem ledger_balance_invariant :
    (∀ (s : AccountStore) (b : ℤ) (id : String) (now : ℕ), b < 0 →
      createAccount s b id now = (.error .invalidInput, s)) ∧
    (∀ (s : AccountStore) (id : String) (d : ℤ) (now : ℕ) (a : Account),
      getAccountRow s id = some a → a.balance + d < 0 →
      updateAccountBalance s id d now false =
        (.error .insufficientFunds, s)) ∧
    (∀ ops : List LedgerOp, NonnegBalances (runOps ops)) := by
  refine ⟨?_, ?_, ?_⟩
  · intro s b id now hb
    simp [createAccount, hb]
  · intro s id d now a hrow hneg
    simp [updateAccountBalance, hrow, hneg]
  · intro ops
    exact runOps_from_nonneg ops [] (by intro a ha; simp at ha)

/-- Witness for C3: a negative opening balance is rejected, an
overdraft-producing delta aborts, and a concrete operation sequence (open
with 10, withdraw 4, attempt to withdraw 7) ends in a committed state
whose balances are all non-negative. -/
theorem ledger_balance_invariant_witness :
    createAccount [] (-5) "a1" 0 = (.error .invalidInput, []) ∧
    updateAccountBalance [⟨"a1", 3, 0, 0⟩] "a1" (-4) 1 false =
      (.error .insufficientFunds, [⟨"a1", 3, 0, 0⟩]) ∧
    NonnegBalances (runOps
      [.createAccount 10 "a1" 0, .applyDelta "a1" (-4) 1 false,
       .applyDelta "a1" (-7) 2 false]) :=
  ⟨ledger_balance_invariant.1 [] (-5) "a1" 0 (by decide),
    ledger_balance_invariant.2.1 [⟨"a1", 3, 0, 0⟩] "a1" (-4) 1
      ⟨"a1", 3, 0, 0⟩ (by decide) (by decide),
    ledger_balance_invariant.2.2
      [.createAccount 10 "a1" 0, .applyDelta "a1" (-4) 1 false,
       .applyDelta "a1" (-7) 2 false]⟩

/-- C8 (code evaluation at the failing input): neither the HTTP handler
nor the service validates `amount` or `type` (the `validate` struct tags
on `TransactionRequest` are never enforced): a deposit of −5 against an
existing account is accepted, a `pending` transaction is inserted into the
log, and the message is published to the broker — no `InvalidInput` error
occurs.  (An empty `account_id` is likewise not rejected as
`InvalidInput`: the handler's account lookup turns it into a not-found
error.) -/
theorem createTransaction_no_validation :
    httpCreateTransaction [⟨"a1", 10, 0, 0⟩] [] []
        { accountId := "a1", type := .deposit, amount := -5,
          reference := "r-1" } "fresh-ref" "t9" 4 false =
      (.ok { id := "t9", accountId := "a1", type := .deposit, amount := -5,
             status := .pending, reference := "r-1", balanceBefore := 0,
             balanceAfter := 0, createdAt := 4, updatedAt := 4 },
        [{ id := "t9", accountId := "a1", type := .deposit, amount := -5,
           status := .pending, reference := "r-1", balanceBefore := 0,
           balanceAfter := 0, createdAt := 4, updatedAt := 4 }],
        [{ id := "t9", accountId := "a1", type := .deposit, amount := -5,
           status := .pending, reference := "r-1", balanceBefore := 0,
           balanceAfter := 0, createdAt := 4, updatedAt := 4 }]) ∧
    httpCreateTransaction [⟨"a1", 10, 0, 0⟩] [] []
        { accountId := "", type := .deposit, amount := 5,
          reference := "r-2" } "fresh-ref" "t9" 4 false =
      (.error .notFound, [], []) := by
  exact ⟨rfl, rfl⟩

/-- Insertion step of a newest-first (`created_at` descending) sort. -/
def insertDesc (t : Transaction) : List Transaction → List Transaction
  | [] => [t]
  | u :: us =>
    if u.createdAt ≤ t.createdAt then t :: u :: us else u :: insertDesc t us

/-- The `created_at: -1` sort that `GetTransactionsByAccountID` requests
from Mongo, as an insertion sort. -/
def sortByCreatedAtDesc : List Transaction → List Transaction
  | [] => []
  | t :: ts => insertDesc t (sortByCreatedAtDesc ts)

/-- `internal/db/mongodb.go` `GetTransactionsByAccountID`: `Find` on
`account_id`, sorted by `created_at` descending, with `SetSkip(offset)`
and `SetLimit(limit)`.  Per the Mongo driver contract a limit of 0 means
no limit (the handler never passes 0, see `effectiveLimit`); a negative
limit returns at most `|limit|` documents. -/
def getTransactionsByAccountID (log : LogStore) (accountId : String)
    (limit offsetArg : ℤ) : List Transaction :=
  let sorted :=
    sortByCreatedAtDesc (log.filter (fun t => t.accountId == accountId))
  let page := sorted.drop offsetArg.toNat
  if limit = 0 then page else page.take limit.natAbs

/-- `internal/api/handlers.go` `GetTransactions` limit parsing: default
10; a parsed value is used only when strictly positive.  `none` models an
absent or non-integer query parameter. -/
def effectiveLimit : Option ℤ → ℤ
  | none => 10
  | some n => if 0 < n then n else 10

/-- `internal/api/handlers.go` `GetTransactions` offset parsing: default
0; a parsed value is used only when non-negative. -/
def effectiveOffset : Option ℤ → ℤ
  | none => 0
  | some n => if 0 ≤ n then n else 0

/-- The HTTP list-transactions operation: parse `limit` and `offset`,
then query the log. -/
def httpGetTransactions (log : LogStore) (accountId : String)
    (limitParam offsetParam : Option ℤ) : List Transaction :=
  getTransactionsByAccountID log accountId (effectiveLimit limitParam)
    (effectiveOffset offsetParam)

/-- Newest-first order: each element's `created_at` is ≥ every later
element's. -/
def NewestFirst (l : List Transaction) : Prop :=
  l.Pairwise (fun a b => b.createdAt ≤ a.createdAt)

theorem length_insertDesc (t : Transaction) (l : List Transaction) :
    (insertDesc t l).length = l.length + 1 := by
  induction l with
  | nil => rfl
  | cons u us ih =>
    unfold insertDesc
    by_cases h : u.createdAt ≤ t.createdAt
    · simp [h]
    · simp [h, ih]

theorem mem_insertDesc {x t : Transaction} {l : List Transaction} :
    x ∈ insertDesc t l ↔ x = t ∨ x ∈ l := by
  induction l with
  | nil => simp [insertDesc]
  | cons u us ih =>
    unfold insertDesc
    by_cases h : u.createdAt ≤ t.createdAt <;> simp [h, ih] <;> tauto

theorem newestFirst_insertDesc (t : Transaction) (l : List Transaction)
    (h : NewestFirst l) : NewestFirst (insertDesc t l) := by
  induction l with
  | nil => simp [insertDesc, NewestFirst]
  | cons u us ih =>
    rcases List.pairwise_cons.mp h with ⟨hu, hus⟩
    unfold insertDesc
    by_cases hc : u.createdAt ≤ t.createdAt
    · rw [if_pos hc]
      refine List.pairwise_cons.mpr ⟨?_, h⟩
      intro x hx
      rcases List.mem_cons.mp hx with rfl | hx
      · exact hc
      · exact le_trans (hu x hx) hc
    · rw [if_neg hc]
      refine List.pairwise_cons.mpr ⟨?_, ih hus⟩
      intro x hx
      rcases mem_insertDesc.mp hx with rfl | hx
      · exact le_of_not_le hc
      · exact hu x hx

theorem newestFirst_sort (l : List Transaction) :
    NewestFirst (sortByCreatedAtDesc l) := by
  induction l with
  | nil => simp [sortByCreatedAtDesc, NewestFirst]
  | cons t ts ih => exact newestFirst_insertDesc t _ ih

theorem length_sortByCreatedAtDesc (l : List Transaction) :
    (sortByCreatedAtDesc l).length = l.length := by
  induction l with
  | nil => rfl
  | cons t ts ih => simp [sortByCreatedAtDesc, length_insertDesc, ih]

/-- C9 counterexample: with one transaction on the account, a request with
`limit=0` does NOT return an empty page: the handler uses a parsed limit
only when it is strictly positive, so `limit=0` falls back to the default
10 and the page contains the transaction. -/
theorem listTransactions_limit0_cex :
    httpGetTransactions
        [{ id := "t1", accountId := "a1", type := .deposit, amount := 5,
           status := .pending, reference := "r-1" }] "a1" (some 0) none =
      [{ id := "t1", accountId := "a1", type := .deposit, amount := 5,
         status := .pending, reference := "r-1" }] ∧
    httpGetTransactions
        [{ id := "t1", accountId := "a1", type := .deposit, amount := 5,
           status := .pending, reference := "r-1" }] "a1" (some 0) none ≠
      ([] : List Transaction) := by
  exact ⟨rfl, by decide⟩

/-- C9 amended: `limit=0` is replaced by the default limit 10 (so the page
is the first ten matching transactions, non-empty whenever the account has
any); an `offset` at or past the end of the account's transactions returns
an empty page; and every returned page is ordered newest-first by
`created_at`. -/
theorem listTransactions_paging_spec (log : LogStore) (accountId : String)
    (limitParam offsetParam : Option ℤ) (off : ℤ) :
    effectiveLimit (some 0) = 10 ∧
    (0 ≤ off →
      (log.filter (fun t => t.accountId == accountId)).length ≤ off.toNat →
      httpGetTransactions log accountId limitParam (some off) = []) ∧
    NewestFirst (httpGetTransactions log accountId limitParam offsetParam) := by
  refine ⟨rfl, ?_, ?_⟩
  · intro hoff hlen
    have hofff : effectiveOffset (some off) = off := by
      simp [effectiveOffset, hoff]
    have hdrop :
        (sortByCreatedAtDesc
            (log.filter (fun t => t.accountId == accountId))).drop
          off.toNat = [] := by
      refine List.drop_eq_nil_of_le ?_
      rw [length_sortByCreatedAtDesc]
      exact hlen
    simp only [httpGetTransactions, getTransactionsByAccountID, hofff,
      hdrop]
    split <;> simp
  · have hsorted := newestFirst_sort
      (log.filter (fun t => t.accountId == accountId))
    have hdropped : NewestFirst
        ((sortByCreatedAtDesc
            (log.filter (fun t => t.accountId == accountId))).drop
          (effectiveOffset offsetParam).toNat) :=
      List.Pairwise.sublist (List.drop_sublist _ _) hsorted
    simp only [httpGetTransactions, getTransactionsByAccountID]
    by_cases hl : effectiveLimit limitParam = 0
    · simpa [hl] using hdropped
    · simp only [hl, if_false]
      exact List.Pairwise.sublist (List.take_sublist _ _) hdropped

/-- Witness for the C9 amended theorem: `limit=0` becomes 10; offset 5 on
a one-transaction account gives the empty page; a two-transaction account
lists newest-first. -/
theorem listTransactions_paging_spec_witness :
    effectiveLimit (some 0) = 10 ∧
    httpGetTransactions
        [{ id := "t1", accountId := "a1", type := .deposit, amount := 5,
           status := .pending, reference := "r-1" }] "a1" none (some 5) =
      [] ∧
    NewestFirst (httpGetTransactions
      [{ id := "t1", accountId := "a1", type := .deposit, amount := 5,
         status := .pending, reference := "r-1", createdAt := 1 },
       { id := "t2", accountId := "a1", type := .deposit, amount := 7,
         status := .pending, reference := "r-2", createdAt := 2 }]
      "a1" none none) := by
  refine ⟨(listTransactions_paging_spec [] "a1" none none 0).1, ?_, ?_⟩
  · exact (listTransactions_paging_spec
      [{ id := "t1", accountId := "a1", type := .deposit, amount := 5,
         status := .pending, reference := "r-1" }] "a1" none none 5).2.1
      (by decide) (by decide)
  · exact (listTransactions_paging_spec
      [{ id := "t1", accountId := "a1", type := .deposit, amount := 5,
         status := .pending, reference := "r-1", createdAt := 1 },
       { id := "t2", accountId := "a1", type := .deposit, amount := 7,
         status := .pending, reference := "r-2", createdAt := 2 }]
      "a1" none none 0).2.2

/-- A broker delivery body as seen by `ConsumeTransactions`: `some tx`
stands for a body that JSON-decodes to the transaction `tx`, `none` for a
body whose `json.Unmarshal` fails. -/
abbrev RawMessage := Option Transaction

/-- The observable actions of the consumer/processor pair for one
delivery. -/
inductive ConsumerEvent where
  | deliver (tx : Transaction)
  | ack
  | rejectDrop
  | processed (ok : Bool)
  deriving Repr, DecidableEq

/-- One iteration of the consumer loop of
`internal/queue/rabbitmq.go` `ConsumeTransactions` combined with the
processor goroutine of `StartProcessor`, linearized per message: a body
that fails to decode is rejected without requeue (`msg.Reject(false)`) and
nothing else happens; otherwise the transaction is sent on the unbuffered
channel (the processor receives it) and the consumer calls
`msg.Ack(false)` immediately — without waiting for `ProcessTransaction`,
whose completion (`procOk`: whether it returned without error, which
`StartProcessor` only logs) comes after the ack in every interleaving. -/
def handleDelivery (body : RawMessage) (procOk : Bool) :
    List ConsumerEvent :=
  match body with
  | none => [.rejectDrop]
  | some tx => [.deliver tx, .ack, .processed procOk]

/-- C10: every decoded message is acknowledged unconditionally,
immediately after the handover to the processing channel and before
processing completes; a reject happens only for undecodable bodies, and
the ack/reject decision is independent of the processing outcome. -/
theorem consumer_ack_unconditional (body : RawMessage)
    (procOk procOk' : Bool) :
    (∀ tx, body = some tx →
      handleDelivery body procOk =
        [.deliver tx, .ack, .processed procOk]) ∧
    (body = none → handleDelivery body procOk = [.rejectDrop]) ∧
    (.rejectDrop ∈ handleDelivery body procOk ↔ body = none) ∧
    ((.ack ∈ handleDelivery body procOk) ↔
      (.ack ∈ handleDelivery body procOk')) := by
  cases body <;> simp [handleDelivery]

/-- Witness for C10: a decoded message whose processing later fails is
still delivered-then-acked and never rejected; an undecodable body is
rejected without requeue. -/
theorem consumer_ack_unconditional_witness :
    handleDelivery
        (some { id := "t1", accountId := "a1", type := .deposit,
                amount := 5, status := .pending, reference := "r-1" })
        false =
      [.deliver { id := "t1", accountId := "a1", type := .deposit,
                  amount := 5, status := .pending, reference := "r-1" },
        .ack, .processed false] ∧
    handleDelivery none true = [.rejectDrop] :=
  ⟨(consumer_ack_unconditional
        (some { id := "t1", accountId := "a1", type := .deposit,
                amount := 5, status := .pending, reference := "r-1" })
        false true).1 _ rfl,
    (consumer_ack_unconditional none true false).2.1 rfl⟩

end Ledger
